import Mathlib

/-!
Verification of the SAM-Lakehouse ingestion core against its specification.

The Python sources (src/lambda_function.py, src/dynamo_event.py,
src/process_files.py, src/utils_lib.py) are shallowly embedded below:
pure logic becomes Lean functions, external calls (S3, DynamoDB, Glue,
pyarrow) are parameterised by explicit environments recording the outcome
of each call, and Python exceptions are modelled with Except.
-/

namespace Lakehouse

/-! ## Regular-expression engine

The table-identifier check in process_files.py line 56-57 is
re.search(r"^[a-z]+\.[a-z][a-z_]+$", table_name).  We embed the regex
as an AST over character classes and run it with Brzozowski derivatives. -/

/-- Regular expressions over characters; cls carries a character-class
predicate, covering the literal classes of the source pattern. -/
inductive RE where
  | zero
  | eps
  | cls (p : Char → Bool)
  | cat (a b : RE)
  | alt (a b : RE)
  | star (a : RE)

/-- Nullability: does the expression accept the empty string? -/
def RE.nullable : RE → Bool
  | .zero => false
  | .eps => true
  | .cls _ => false
  | .cat a b => a.nullable && b.nullable
  | .alt a b => a.nullable || b.nullable
  | .star _ => true

/-- Brzozowski derivative of an expression with respect to one character. -/
def RE.deriv : RE → Char → RE
  | .zero, _ => .zero
  | .eps, _ => .zero
  | .cls p, c => if p c then .eps else .zero
  | .cat a b, c =>
    if a.nullable then .alt (.cat (a.deriv c) b) (b.deriv c)
    else .cat (a.deriv c) b
  | .alt a b, c => .alt (a.deriv c) (b.deriv c)
  | .star a, c => .cat (a.deriv c) (.star a)

/-- Run the matcher over a whole character list (full match). -/
def RE.rmatch : RE → List Char → Bool
  | r, [] => r.nullable
  | r, c :: s => (r.deriv c).rmatch s

/-- Declarative matching semantics of the regex AST. -/
inductive REMatch : RE → List Char → Prop where
  | epsM : REMatch .eps []
  | clsM {p : Char → Bool} {c : Char} : p c = true → REMatch (.cls p) [c]
  | catM {a b : RE} {s t : List Char} :
      REMatch a s → REMatch b t → REMatch (.cat a b) (s ++ t)
  | altLM {a b : RE} {s : List Char} : REMatch a s → REMatch (.alt a b) s
  | altRM {a b : RE} {s : List Char} : REMatch b s → REMatch (.alt a b) s
  | starNilM {a : RE} : REMatch (.star a) []
  | starCatM {a : RE} {s t : List Char} :
      REMatch a s → REMatch (.star a) t → REMatch (.star a) (s ++ t)

theorem REMatch.zero_inv {s : List Char} (h : REMatch .zero s) : False := by
  cases h

theorem REMatch.eps_inv {s : List Char} (h : REMatch .eps s) : s = [] := by
  cases h; rfl

theorem REMatch.cls_inv {p : Char → Bool} {s : List Char}
    (h : REMatch (.cls p) s) : ∃ c, s = [c] ∧ p c = true := by
  cases h with
  | clsM hp => exact ⟨_, rfl, hp⟩

theorem REMatch.cat_inv {a b : RE} {s : List Char}
    (h : REMatch (.cat a b) s) :
    ∃ u v, s = u ++ v ∧ REMatch a u ∧ REMatch b v := by
  cases h with
  | catM ha hb => exact ⟨_, _, rfl, ha, hb⟩

theorem REMatch.alt_inv {a b : RE} {s : List Char}
    (h : REMatch (.alt a b) s) : REMatch a s ∨ REMatch b s := by
  cases h with
  | altLM h => exact Or.inl h
  | altRM h => exact Or.inr h

theorem RE.nullable_iff (r : RE) : r.nullable = true ↔ REMatch r [] := by
  induction r with
  | zero => simp [RE.nullable]; intro h; exact h.zero_inv
  | eps => simp [RE.nullable]; exact .epsM
  | cls p =>
    simp [RE.nullable]; intro h
    rcases h.cls_inv with ⟨c, hc, _⟩; cases hc
  | cat a b iha ihb =>
    simp only [RE.nullable, Bool.and_eq_true, iha, ihb]
    constructor
    · rintro ⟨ha, hb⟩
      have := REMatch.catM ha hb
      simpa using this
    · intro h
      rcases h.cat_inv with ⟨u, v, huv, ha, hb⟩
      rcases List.append_eq_nil.mp huv.symm with ⟨hu, hv⟩
      subst hu; subst hv
      exact ⟨ha, hb⟩
  | alt a b iha ihb =>
    simp only [RE.nullable, Bool.or_eq_true, iha, ihb]
    constructor
    · rintro (h | h)
      · exact .altLM h
      · exact .altRM h
    · intro h; exact h.alt_inv
  | star a iha =>
    simp [RE.nullable]; exact .starNilM

/-- Inversion of a star match on a nonempty string: peel off a nonempty
first chunk matched by the body. -/
theorem REMatch.star_cons {a : RE} {c : Char} {s : List Char}
    (h : REMatch (.star a) (c :: s)) :
    ∃ u v, s = u ++ v ∧ REMatch a (c :: u) ∧ REMatch (.star a) v := by
  generalize hr : RE.star a = r at h
  generalize hl : c :: s = l at h
  induction h generalizing c s with
  | epsM => cases hr
  | clsM _ => cases hr
  | catM _ _ _ _ => cases hr
  | altLM _ _ => cases hr
  | altRM _ _ => cases hr
  | starNilM => cases hl
  | starCatM ha hrest ih1 ih2 =>
    cases hr
    rename_i s1 t1
    cases s1 with
    | nil =>
      simp only [List.nil_append] at hl
      exact ih2 rfl hl
    | cons c1 u1 =>
      simp only [List.cons_append] at hl
      rcases List.cons_eq_cons.mp hl with ⟨h1, h2⟩
      subst h1; subst h2
      exact ⟨u1, t1, rfl, ha, hrest⟩

theorem RE.deriv_iff (r : RE) (c : Char) (s : List Char) :
    REMatch (r.deriv c) s ↔ REMatch r (c :: s) := by
  induction r generalizing s with
  | zero =>
    simp only [RE.deriv]
    exact ⟨fun h => absurd h REMatch.zero_inv, fun h => absurd h REMatch.zero_inv⟩
  | eps =>
    simp only [RE.deriv]
    constructor
    · intro h; exact absurd h REMatch.zero_inv
    · intro h; cases h
  | cls p =>
    simp only [RE.deriv]
    by_cases hp : p c
    · simp only [hp, if_true]
      constructor
      · intro h; rw [h.eps_inv]; exact .clsM hp
      · intro h
        rcases h.cls_inv with ⟨d, hd, _⟩
        cases hd; exact .epsM
    · simp only [hp, if_false]
      constructor
      · intro h; exact absurd h REMatch.zero_inv
      · intro h
        rcases h.cls_inv with ⟨d, hd, hpd⟩
        cases hd
        simp [hpd] at hp
  | cat a b iha ihb =>
    simp only [RE.deriv]
    by_cases hn : a.nullable
    · simp only [hn, if_true]
      constructor
      · intro h
        rcases h.alt_inv with h | h
        · rcases h.cat_inv with ⟨u, v, huv, hu, hv⟩
          subst huv
          have := REMatch.catM ((iha u).mp hu) hv
          simpa using this
        · have ha0 : REMatch a [] := (RE.nullable_iff a).mp hn
          have := REMatch.catM ha0 ((ihb s).mp h)
          simpa using this
      · intro h
        rcases h.cat_inv with ⟨u, v, huv, hu, hv⟩
        cases u with
        | nil =>
          simp only [List.nil_append] at huv
          subst huv
          exact .altRM ((ihb s).mpr hv)
        | cons c1 u1 =>
          rcases List.cons_eq_cons.mp huv with ⟨hc1, hs⟩
          subst hc1; subst hs
          exact .altLM (.catM ((iha u1).mpr hu) hv)
    · simp only [hn, if_false]
      constructor
      · intro h
        rcases h.cat_inv with ⟨u, v, huv, hu, hv⟩
        subst huv
        have := REMatch.catM ((iha u).mp hu) hv
        simpa using this
      · intro h
        rcases h.cat_inv with ⟨u, v, huv, hu, hv⟩
        cases u with
        | nil =>
          exact absurd ((RE.nullable_iff a).mpr hu) (by simpa using hn)
        | cons c1 u1 =>
          rcases List.cons_eq_cons.mp huv with ⟨hc1, hs⟩
          subst hc1; subst hs
          exact .catM ((iha u1).mpr hu) hv
  | alt a b iha ihb =>
    simp only [RE.deriv]
    constructor
    · intro h
      rcases h.alt_inv with h | h
      · exact .altLM ((iha s).mp h)
      · exact .altRM ((ihb s).mp h)
    · intro h
      rcases h.alt_inv with h | h
      · exact .altLM ((iha s).mpr h)
      · exact .altRM ((ihb s).mpr h)
  | star a iha =>
    simp only [RE.deriv]
    constructor
    · intro h
      rcases h.cat_inv with ⟨u, v, huv, hu, hv⟩
      subst huv
      have := REMatch.starCatM ((iha u).mp hu) hv
      simpa using this
    · intro h
      rcases h.star_cons with ⟨u, v, huv, hu, hv⟩
      subst huv
      exact .catM ((iha u).mpr hu) hv

theorem RE.rmatch_iff (r : RE) (s : List Char) :
    r.rmatch s = true ↔ REMatch r s := by
  induction s generalizing r with
  | nil => simpa [RE.rmatch] using r.nullable_iff
  | cons c s ih =>
    simp only [RE.rmatch]
    rw [ih]
    exact r.deriv_iff c s

/-! ## Table-identifier validation (process_files.py lines 55-63) -/

/-- Character class a-z of the source pattern. -/
def lowAZ (c : Char) : Bool := 'a' ≤ c && c ≤ 'z'

/-- Character class of lowercase letters and underscore, class of the
source pattern for the tail of the table name. -/
def lowUS (c : Char) : Bool := lowAZ c || c == '_'

/-- One-or-more repetition, the + operator of the source pattern. -/
def plusRE (r : RE) : RE := .cat r (.star r)

/-- AST of the source pattern r"^[a-z]+\.[a-z][a-z_]+$" (anchors handled
by full matching in validateTableName). -/
def tableNamePattern : RE :=
  .cat (plusRE (.cls lowAZ))
    (.cat (.cls (fun c => c == '.')) (.cat (.cls lowAZ) (plusRE (.cls lowUS))))

/-- Embedding of Python re.search(r"^pat$", s) is not None for a pattern
anchored at both ends and compiled without MULTILINE: the caret restricts
the match to position 0, and the dollar matches at the very end of the
string or just before one final newline, so the search succeeds exactly
when pat fully matches s, or s ends with one newline and pat fully
matches s without that newline. -/
def reSearchAnchored (r : RE) (s : List Char) : Bool :=
  r.rmatch s ||
    (match s.getLast? with
     | some c => (c == '\n') && r.rmatch s.dropLast
     | none => false)

/-- Embedding of the validator in process_event_data:
    pattern = r"^[a-z]+\.[a-z][a-z_]+$"; re.search(pattern, table_name). -/
def validateTableName (table_name : String) : Bool :=
  reSearchAnchored tableNamePattern table_name.toList

/-- Modelled from the spec: the identifier language claimed by the spec,
namely a nonempty all-lowercase-letter namespace, a literal dot, and a
table name that starts with a lowercase letter, contains only lowercase
letters and underscores, and has length at least two. -/
def specTableIdent (s : List Char) : Bool :=
  let ns := s.takeWhile lowAZ
  let rest := s.drop ns.length
  !ns.isEmpty &&
    (match rest with
     | '.' :: c :: tl => lowAZ c && !tl.isEmpty && tl.all lowUS
     | _ => false)

theorem starCls_iff (p : Char → Bool) (s : List Char) :
    REMatch (.star (.cls p)) s ↔ ∀ c ∈ s, p c = true := by
  constructor
  · intro h
    induction s with
    | nil => intro c hc; cases hc
    | cons c s ih =>
      rcases h.star_cons with ⟨u, v, huv, hu, hv⟩
      rcases hu.cls_inv with ⟨d, hd, hpd⟩
      rcases List.cons_eq_cons.mp hd with ⟨hcd, hu0⟩
      subst hcd
      subst hu0
      simp only [List.nil_append] at huv
      subst huv
      intro e he
      rcases List.mem_cons.mp he with he | he
      · subst he; exact hpd
      · exact ih hv e he
  · intro h
    induction s with
    | nil => exact .starNilM
    | cons c s ih =>
      have : REMatch (.star (.cls p)) ([c] ++ s) :=
        .starCatM (.clsM (h c (List.mem_cons_self c s)))
          (ih fun e he => h e (List.mem_cons_of_mem c he))
      simpa using this

theorem plusCls_iff (p : Char → Bool) (s : List Char) :
    REMatch (plusRE (.cls p)) s ↔ s ≠ [] ∧ ∀ c ∈ s, p c = true := by
  constructor
  · intro h
    rcases h.cat_inv with ⟨u, v, huv, hu, hv⟩
    rcases hu.cls_inv with ⟨c, hc, hpc⟩
    subst hc; subst huv
    refine ⟨by simp, ?_⟩
    intro e he
    rcases List.mem_append.mp he with he | he
    · rcases List.mem_singleton.mp he with rfl; exact hpc
    · exact (starCls_iff p v).mp hv e he
  · rintro ⟨hne, h⟩
    cases s with
    | nil => exact absurd rfl hne
    | cons c s =>
      have : REMatch (plusRE (.cls p)) ([c] ++ s) :=
        .catM (.clsM (h c (List.mem_cons_self c s)))
          ((starCls_iff p s).mpr fun e he => h e (List.mem_cons_of_mem c he))
      simpa using this

/-- Language of the full pattern: a decomposition into namespace, dot,
first table-name letter, and nonempty tail of letters/underscores. -/
theorem tableNamePattern_iff (s : List Char) :
    REMatch tableNamePattern s ↔
      ∃ ns c tl, s = ns ++ '.' :: c :: tl ∧ ns ≠ [] ∧
        (∀ a ∈ ns, lowAZ a = true) ∧ lowAZ c = true ∧ tl ≠ [] ∧
        (∀ a ∈ tl, lowUS a = true) := by
  constructor
  · intro h
    rcases h.cat_inv with ⟨ns, rest, hs, hns, hrest⟩
    rcases (plusCls_iff lowAZ ns).mp hns with ⟨hne, hall⟩
    rcases hrest.cat_inv with ⟨d, rest2, hrest2, hd, hrest3⟩
    rcases hd.cls_inv with ⟨d0, hd0, hdot⟩
    subst hd0
    rcases hrest3.cat_inv with ⟨u, tl, hutl, hu, htl⟩
    rcases hu.cls_inv with ⟨c, hc, hlc⟩
    subst hc
    rcases (plusCls_iff lowUS tl).mp htl with ⟨htlne, htlall⟩
    have hd0eq : d0 = '.' := by simpa using hdot
    subst hd0eq
    refine ⟨ns, c, tl, ?_, hne, hall, hlc, htlne, htlall⟩
    subst hrest2; subst hutl; subst hs
    simp
  · rintro ⟨ns, c, tl, hs, hne, hall, hlc, htlne, htlall⟩
    subst hs
    refine REMatch.catM ((plusCls_iff lowAZ ns).mpr ⟨hne, hall⟩) ?_
    have : REMatch
        (.cat (.cls (fun c => c == '.')) (.cat (.cls lowAZ) (plusRE (.cls lowUS))))
        ([('.' : Char)] ++ ([c] ++ tl)) := by
      refine .catM (.clsM (by simp)) ?_
      exact .catM (.clsM hlc) ((plusCls_iff lowUS tl).mpr ⟨htlne, htlall⟩)
    simpa using this

theorem takeWhileLen_append_drop (p : Char → Bool) (l : List Char) :
    l.takeWhile p ++ l.drop (l.takeWhile p).length = l := by
  induction l with
  | nil => rfl
  | cons c l ih =>
    by_cases hc : p c
    · simp only [List.takeWhile_cons, hc, if_true, List.length_cons,
        List.drop_succ_cons, List.cons_append]
      rw [ih]
    · simp [List.takeWhile_cons, hc]

theorem takeWhile_all_append {p : Char → Bool} {l1 l2 : List Char} {a : Char}
    (h1 : ∀ c ∈ l1, p c = true) (h2 : p a = false) :
    (l1 ++ a :: l2).takeWhile p = l1 := by
  induction l1 with
  | nil => simp [List.takeWhile, h2]
  | cons c l ih =>
    have hc : p c = true := h1 c (List.mem_cons_self c l)
    simp only [List.cons_append, List.takeWhile_cons, hc, if_true]
    rw [ih fun e he => h1 e (List.mem_cons_of_mem c he)]

/-- The spec-side scanner recognises exactly the decomposition language. -/
theorem specTableIdent_iff (s : List Char) :
    specTableIdent s = true ↔
      ∃ ns c tl, s = ns ++ '.' :: c :: tl ∧ ns ≠ [] ∧
        (∀ a ∈ ns, lowAZ a = true) ∧ lowAZ c = true ∧ tl ≠ [] ∧
        (∀ a ∈ tl, lowUS a = true) := by
  constructor
  · intro h
    simp only [specTableIdent, Bool.and_eq_true, Bool.not_eq_true'] at h
    rcases h with ⟨hne, hmatch⟩
    split at hmatch
    case h_1 c tl heq =>
      simp only [Bool.and_eq_true, Bool.not_eq_true'] at hmatch
      rcases hmatch with ⟨⟨hc, htlne⟩, htlall⟩
      refine ⟨s.takeWhile lowAZ, c, tl, ?_, ?_, ?_, hc, ?_, ?_⟩
      · rw [← heq]
        exact (takeWhileLen_append_drop lowAZ s).symm
      · simpa using hne
      · intro a ha; exact List.mem_takeWhile_imp ha
      · simpa using htlne
      · intro a ha; exact List.all_eq_true.mp htlall a ha
    case h_2 => simp at hmatch
  · rintro ⟨ns, c, tl, hs, hne, hall, hlc, htlne, htlall⟩
    subst hs
    have htw : ((ns ++ '.' :: c :: tl).takeWhile lowAZ) = ns :=
      takeWhile_all_append hall (by simp [lowAZ])
    simp only [specTableIdent, htw, Bool.and_eq_true, Bool.not_eq_true']
    refine ⟨by simpa using hne, ?_⟩
    have hdrop : (ns ++ '.' :: c :: tl).drop ns.length = '.' :: c :: tl := by
      rw [List.drop_append_of_le_length (le_refl ns.length)]
      simp
    rw [hdrop]
    simp only [Bool.and_eq_true, Bool.not_eq_true']
    exact ⟨⟨hlc, by simpa using htlne⟩, List.all_eq_true.mpr htlall⟩

/-- Claim C6 (counterexample). The claim states the validator accepts
exactly the strings of the spec language; but Python's dollar anchor also
matches just before one trailing newline, so the validator accepts
"salesdb.orders" followed by a newline, which is outside the spec
language. -/
theorem validateTableName_claim_false :
    validateTableName "salesdb.orders\n" = true ∧
      specTableIdent ("salesdb.orders\n".toList) = false := by
  constructor
  · rfl
  · rfl

/-- Claim C6 (amended). The validator accepts exactly the strings of the
spec language (nonempty lowercase namespace, a dot, a table name starting
with a lowercase letter, containing only lowercase letters and
underscores, of length at least two), or such a string followed by one
trailing newline; in particular it accepts "salesdb.orders" and
"salesdb.ab" and rejects "SalesDB.orders" and "salesdb.". -/
theorem validateTableName_iff_spec (s : String) :
    validateTableName s = true ↔
      (specTableIdent s.toList = true ∨
        (s.toList.getLast? = some '\n' ∧ specTableIdent s.toList.dropLast = true)) := by
  have hmain : ∀ l : List Char, RE.rmatch tableNamePattern l = true ↔
      specTableIdent l = true := by
    intro l
    rw [RE.rmatch_iff, tableNamePattern_iff, specTableIdent_iff]
  simp only [validateTableName, reSearchAnchored, Bool.or_eq_true]
  constructor
  · rintro (h | h)
    · exact Or.inl ((hmain _).mp h)
    · match hlast : s.toList.getLast? with
      | some c =>
        rw [hlast] at h
        simp only [Bool.and_eq_true, beq_iff_eq] at h
        rcases h with ⟨hc, hm⟩
        subst hc
        exact Or.inr ⟨rfl, (hmain _).mp hm⟩
      | none => rw [hlast] at h; simp at h
  · rintro (h | ⟨hlast, h⟩)
    · exact Or.inl ((hmain _).mpr h)
    · refine Or.inr ?_
      rw [hlast]
      simpa using (hmain _).mpr h

/-! ## Partition-null validation (utils_lib.py check_partition_columns,
check_nan_count) -/

/-- One entry of the descriptor's partition spec fields list. -/
structure PartitionFieldJson where
  sourceId : Nat
  fieldId : Nat
  transform : String
  name : String
deriving DecidableEq

/-- A pyarrow column, abstracted to its row count and null count. -/
structure Column where
  rows : Nat
  nulls : Nat
deriving DecidableEq

/-- A pyarrow table: named columns; subscripting a missing name raises. -/
abbrev DataFrame := List (String × Column)

/-- Column access df[name], KeyError modelled as none. -/
def dfColumn (df : DataFrame) (name : String) : Option Column :=
  (df.find? (fun kv => kv.1 == name)).map (fun kv => kv.2)

/-- Distinct source ids of the partition fields, in order of first
appearance: key order of pyiceberg's source_id_to_fields_map. -/
def distinctSourceIds (fs : List PartitionFieldJson) : List Nat :=
  fs.foldl (fun acc f => if acc.contains f.sourceId then acc else acc ++ [f.sourceId]) []

/-- Embedding of check_partition_columns lines 229-230: the column names
produced by flattening partition.source_id_to_fields_map.values(). -/
def partitionColNames (fs : List PartitionFieldJson) : List String :=
  ((distinctSourceIds fs).map fun sid =>
    (fs.filter fun f => f.sourceId == sid).map fun f => f.name).flatten

/-- Embedding of nan_count = pc.sum(pc.is_null(array)).as_py(): pc.sum
defaults to min_count = 1, so summing the null mask of a zero-row column
yields a null scalar whose as_py() is Python None, modelled as none;
otherwise the null count of the column. -/
def pySumNullMask (col : Column) : Option Nat :=
  if col.rows = 0 then none else some col.nulls

/-- Loop body of check_nan_count: a failed column access is caught and
counted as 1; a Python-None count makes the subsequent
sum_n += nan_count raise TypeError, modelled as Except.error. -/
def checkNanLoop (df : DataFrame) (sum_n : Nat) : List String → Except Unit Nat
  | [] => .ok sum_n
  | column :: rest =>
    let nan_count : Option Nat :=
      match dfColumn df column with
      | none => some 1
      | some col => pySumNullMask col
    match nan_count with
    | none => .error ()
    | some k => checkNanLoop df (sum_n + k) rest

/-- Embedding of check_nan_count (utils_lib.py lines 280-304). -/
def check_nan_count (df : DataFrame) (col_names : List String) : Except Unit Nat :=
  checkNanLoop df 0 col_names

/-- Embedding of check_partition_columns (utils_lib.py lines 216-245):
Python returns True on pass and None (falsy) on failure or on any
exception from check_nan_count; we return the truthiness. -/
def check_partition_columns (df : DataFrame) (partition_fields : List PartitionFieldJson) : Bool :=
  let col_names := partitionColNames partition_fields
  match check_nan_count df col_names with
  | .error _ => false
  | .ok total_nan => if total_nan = 0 then true else false

/-- Modelled from the spec: the per-column null count of the claim, where
a scan or access error on a referenced column contributes at least one
violation (an absent column, and the indefinite null result a zero-row
column scan produces, each count as 1). -/
def claimedNullCount (df : DataFrame) (c : String) : Nat :=
  match dfColumn df c with
  | none => 1
  | some col => if col.rows = 0 then 1 else col.nulls

/-- Modelled from the spec: the total null-violation count over the
referenced columns. -/
def claimedNullSum (df : DataFrame) (cols : List String) : Nat :=
  (cols.map (claimedNullCount df)).sum

theorem checkNanLoop_zero_iff (df : DataFrame) :
    ∀ (cols : List String) (s : Nat),
      (match checkNanLoop df s cols with
       | .ok t => t = 0
       | .error _ => False) ↔
        s = 0 ∧ ∀ c ∈ cols, claimedNullCount df c = 0 := by
  intro cols
  induction cols with
  | nil =>
    intro s
    simp [checkNanLoop]
  | cons column rest ih =>
    intro s
    simp only [checkNanLoop]
    match hcol : dfColumn df column with
    | none =>
      simp only
      rw [ih]
      constructor
      · rintro ⟨hs, _⟩; exact absurd hs (by omega)
      · rintro ⟨hs, hall⟩
        have h1 := hall column (List.mem_cons_self column rest)
        simp [claimedNullCount, hcol] at h1
    | some col =>
      by_cases hr : col.rows = 0
      · simp only [pySumNullMask, hr, if_true]
        constructor
        · intro h; exact absurd h not_false
        · rintro ⟨_, hall⟩
          have h1 := hall column (List.mem_cons_self column rest)
          simp [claimedNullCount, hcol, hr] at h1
      · simp only [pySumNullMask, hr, if_false]
        rw [ih]
        constructor
        · rintro ⟨hs, hall⟩
          refine ⟨by omega, ?_⟩
          intro c hc
          rcases List.mem_cons.mp hc with hc | hc
          · subst hc
            simp only [claimedNullCount, hcol, hr, if_false]
            omega
          · exact hall c hc
        · rintro ⟨hs, hall⟩
          have h0 := hall column (List.mem_cons_self column rest)
          simp only [claimedNullCount, hcol, hr, if_false] at h0
          subst hs
          exact ⟨by omega, fun c hc => hall c (List.mem_cons_of_mem column hc)⟩

/-- Claim C2. The partition validator passes a batch exactly when the
sum of null-violation counts over every column referenced by the
partition spec's source fields is zero, where an access error or an
indefinite scan result on a referenced column contributes at least one
violation, so an ambiguous scan can never cause a pass; any nonzero sum
yields the failure outcome. -/
theorem check_partition_columns_iff_zero (df : DataFrame)
    (pfs : List PartitionFieldJson) :
    check_partition_columns df pfs = true ↔
      claimedNullSum df (partitionColNames pfs) = 0 := by
  have h := checkNanLoop_zero_iff df (partitionColNames pfs) 0
  simp only [check_partition_columns, check_nan_count]
  rw [claimedNullSum, List.sum_eq_zero_iff]
  constructor
  · intro hc
    have : (match checkNanLoop df 0 (partitionColNames pfs) with
        | .ok t => t = 0
        | .error _ => False) := by
      match hl : checkNanLoop df 0 (partitionColNames pfs) with
      | .ok t =>
        rw [hl] at hc
        by_cases ht : t = 0
        · exact ht
        · simp [ht] at hc
      | .error e => rw [hl] at hc; simp at hc
    intro n hn
    rcases List.mem_map.mp hn with ⟨c, hcmem, hcn⟩
    subst hcn
    exact (h.mp this).2 c hcmem
  · intro hall
    have : (match checkNanLoop df 0 (partitionColNames pfs) with
        | .ok t => t = 0
        | .error _ => False) := by
      refine h.mpr ⟨rfl, ?_⟩
      intro c hc
      exact hall _ (List.mem_map.mpr ⟨c, hc, rfl⟩)
    match hl : checkNanLoop df 0 (partitionColNames pfs) with
    | .ok t =>
      rw [hl] at this
      simp [this]
    | .error e => rw [hl] at this; exact absurd this not_false

/-! ## Catalog reconciliation (utils_lib.py check_table, update_schema)

External calls (catalog.load_table, catalog.create_table, the add_column
transactions, Schema.model_validate_json) are parameterised by a
CatalogEnv recording each call's outcome; the live table is represented
by its schema, a field list. -/

/-- One field of a schema descriptor or of a live schema. -/
structure FieldJson where
  id : Nat
  name : String
  type : String
  required : Bool
  doc : Option String
deriving DecidableEq

/-- The attributes add_column passes on (utils_lib.py lines 329-334):
name, field_type, required and doc; the field id of an added column is
assigned by the catalog, not taken from the descriptor. -/
def fieldAttrs (f : FieldJson) : String × String × Bool × Option String :=
  (f.name, f.type, f.required, f.doc)

/-- Fresh column id assigned by the catalog on add_column: one past the
highest id of the live schema. -/
def nextColumnId (live : List FieldJson) : Nat :=
  (live.map fun f => f.id).foldl max 0 + 1

/-- Effect of one update.add_column(col.name, field_type, doc, required)
transaction on the live schema: append the declared attributes under a
fresh catalog-assigned id. -/
def addColumn (live : List FieldJson) (c : FieldJson) : List FieldJson :=
  live ++ [{ id := nextColumnId live, name := c.name, type := c.type,
             required := c.required, doc := c.doc }]

/-- Python list slice l[k:] for an arbitrary integer start. -/
def pySliceFrom (l : List FieldJson) (k : Int) : List FieldJson :=
  if k < 0 then l.drop ((l.length : Int) + k).toNat else l.drop k.toNat

/-- The add_column loop of update_schema: each column is its own
transaction, so a failure at position i (failAt = some i, which also
covers a Schema.model_validate_json failure when i = 0) leaves the first
i columns added and returns the False branch. -/
def runAddColumns : Option Nat → List FieldJson → List FieldJson → Bool × List FieldJson
  | _, live, [] => (true, live)
  | some 0, live, _ :: _ => (false, live)
  | some (i + 1), live, c :: cs => runAddColumns (some i) (addColumn live c) cs
  | none, live, c :: cs => runAddColumns none (addColumn live c) cs

/-- Embedding of update_schema (utils_lib.py lines 311-341):
diff_count = len(metadata_schema) - len(glue_schema);
new_glue_fields = metadata_schema[-diff_count:]; then add_column per
field, returning True on success and False on any exception, together
with the resulting live schema. -/
def update_schema (failAt : Option Nat) (glue_schema metadata_schema : List FieldJson) :
    Bool × List FieldJson :=
  let diff_count : Int := (metadata_schema.length : Int) - (glue_schema.length : Int)
  let new_glue_fields := pySliceFrom metadata_schema (-diff_count)
  runAddColumns failAt glue_schema new_glue_fields

/-- Outcome of catalog.load_table: the live schema, NoSuchTableError, or
any other exception. -/
inductive LoadResult where
  | ok (glue_fields : List FieldJson)
  | noSuchTable
  | otherError
deriving DecidableEq

/-- Outcomes of the external calls made by check_table. -/
structure CatalogEnv where
  schemaValidOk : Bool
  load : LoadResult
  createOk : Bool
  evolveFailAt : Option Nat
deriving DecidableEq

/-- Embedding of check_table (utils_lib.py lines 87-152), returning the
live table handle as its schema. Schema.model_validate_json may raise
(schemaValidOk); a non-NoSuchTableError load failure returns None; when
the table exists and the descriptor has strictly more fields,
update_schema runs and its boolean result is only used for a log line —
the handle is returned regardless; when the table is absent it is
created with the descriptor schema, None on failure. The bucket,
database and table-name string parameters of the source only form the
storage location and log messages and are omitted. -/
def check_table (env : CatalogEnv) (metadata_fields : List FieldJson) :
    Except Unit (Option (List FieldJson)) :=
  if !env.schemaValidOk then .error ()
  else
    match env.load with
    | .otherError => .ok none
    | .noSuchTable => if env.createOk then .ok (some metadata_fields) else .ok none
    | .ok glue_fields =>
      if metadata_fields.length > glue_fields.length then
        .ok (some (update_schema env.evolveFailAt glue_fields metadata_fields).2)
      else .ok (some glue_fields)

theorem runAddColumns_none (cs : List FieldJson) :
    ∀ live, runAddColumns none live cs = (true, cs.foldl addColumn live) := by
  induction cs with
  | nil => intro live; rfl
  | cons c cs ih => intro live; simp only [runAddColumns, List.foldl_cons]; exact ih _

theorem foldl_addColumn_attrs (cs : List FieldJson) :
    ∀ live, (cs.foldl addColumn live).map fieldAttrs =
      live.map fieldAttrs ++ cs.map fieldAttrs := by
  induction cs with
  | nil => intro live; simp
  | cons c cs ih =>
    intro live
    simp only [List.foldl_cons, List.map_cons]
    rw [ih]
    simp [addColumn, fieldAttrs]

theorem foldl_addColumn_prefix (cs : List FieldJson) :
    ∀ live, (cs.foldl addColumn live).take live.length = live := by
  induction cs with
  | nil => intro live; simp
  | cons c cs ih =>
    intro live
    simp only [List.foldl_cons]
    have h := ih (addColumn live c)
    have hlen : live.length ≤ (addColumn live c).length := by
      simp [addColumn]
    calc (List.foldl addColumn (addColumn live c) cs).take live.length
        = ((List.foldl addColumn (addColumn live c) cs).take
            (addColumn live c).length).take live.length := by
          rw [List.take_take, min_eq_left hlen]
      _ = (addColumn live c).take live.length := by rw [h]
      _ = live := by simp [addColumn]

theorem pySliceFrom_neg_diff (md : List FieldJson) (m : Nat)
    (h : m < md.length) :
    pySliceFrom md (-((md.length : Int) - (m : Int))) = md.drop m := by
  rw [pySliceFrom, if_pos (by omega)]
  congr 1
  omega

/-- Claim C1. When check_table finds the table present and the
descriptor has strictly more fields (n) than the live schema (m) and the
evolution transactions succeed, the returned live schema keeps the m
existing fields as a prefix and appends exactly the last n − m
descriptor fields selected by list position, in order, each with its
declared name, type, required flag and documentation; when the
descriptor has m or fewer fields, the live schema is returned unchanged
for every possible evolution outcome (no evolution call is made). -/
theorem check_table_schema_evolution :
    (∀ (env : CatalogEnv) (glue_fields metadata_fields : List FieldJson),
      env.schemaValidOk = true → env.load = .ok glue_fields →
      env.evolveFailAt = none →
      glue_fields.length < metadata_fields.length →
      check_table env metadata_fields =
        .ok (some (update_schema none glue_fields metadata_fields).2) ∧
      (update_schema none glue_fields metadata_fields).2.take glue_fields.length
        = glue_fields ∧
      (update_schema none glue_fields metadata_fields).2.map fieldAttrs
        = glue_fields.map fieldAttrs
          ++ (metadata_fields.drop glue_fields.length).map fieldAttrs) ∧
    (∀ (env : CatalogEnv) (glue_fields metadata_fields : List FieldJson),
      env.schemaValidOk = true → env.load = .ok glue_fields →
      metadata_fields.length ≤ glue_fields.length →
      check_table env metadata_fields = .ok (some glue_fields)) := by
  constructor
  · intro env glue_fields metadata_fields hvalid hload hfail hlt
    have hupd : update_schema none glue_fields metadata_fields =
        (true, (metadata_fields.drop glue_fields.length).foldl addColumn glue_fields) := by
      simp only [update_schema]
      rw [pySliceFrom_neg_diff metadata_fields glue_fields.length hlt]
      exact runAddColumns_none _ _
    refine ⟨?_, ?_, ?_⟩
    · rw [check_table, hvalid, hload]
      simp only [Bool.not_true, Bool.false_eq_true, if_false]
      rw [if_pos hlt, hfail]
    · rw [hupd]; exact foldl_addColumn_prefix _ _
    · rw [hupd]; exact foldl_addColumn_attrs _ _
  · intro env glue_fields metadata_fields hvalid hload hle
    rw [check_table, hvalid, hload]
    simp only [Bool.not_true, Bool.false_eq_true, if_false]
    rw [if_neg (by omega)]

/-- Concrete live schema and descriptor for the C1 witness: live table
with two fields, descriptor with four. -/
def c1Glue : List FieldJson :=
  [⟨1, "event_id", "string", true, none⟩, ⟨2, "amount", "double", false, none⟩]

/-- Concrete descriptor fields for the C1 witness. -/
def c1Md : List FieldJson :=
  [⟨1, "event_id", "string", true, none⟩, ⟨2, "amount", "double", false, none⟩,
   ⟨3, "region", "string", false, some "sales region"⟩,
   ⟨4, "loaded_at", "timestamp", false, none⟩]

/-- Concrete catalog environment for the C1 witness. -/
def c1Env : CatalogEnv := ⟨true, .ok c1Glue, true, none⟩

/-- Witness for claim C1 at a concrete input: the two trailing
descriptor fields are appended, by position and with their declared
attributes, and a two-field descriptor leaves the schema unchanged. -/
theorem check_table_schema_evolution_witness :
    (check_table c1Env c1Md =
        .ok (some (update_schema none c1Glue c1Md).2) ∧
      (update_schema none c1Glue c1Md).2.take c1Glue.length = c1Glue ∧
      (update_schema none c1Glue c1Md).2.map fieldAttrs
        = c1Glue.map fieldAttrs ++ (c1Md.drop c1Glue.length).map fieldAttrs) ∧
    check_table c1Env c1Glue = .ok (some c1Glue) :=
  ⟨check_table_schema_evolution.1 c1Env c1Glue c1Md rfl rfl rfl (by decide),
   check_table_schema_evolution.2 c1Env c1Glue c1Glue rfl rfl (by decide)⟩

/-- Concrete environment for the C5 counterexample: the table exists
with one field, the descriptor has two, and the required evolution
fails immediately. -/
def c5Env : CatalogEnv :=
  ⟨true, .ok [⟨1, "event_id", "string", true, none⟩], true, some 0⟩

/-- Concrete descriptor for the C5 counterexample. -/
def c5Md : List FieldJson :=
  [⟨1, "event_id", "string", true, none⟩, ⟨2, "region", "string", false, none⟩]

/-- Claim C5 (counterexample). A required schema evolution fails
(update_schema returns its False branch having added nothing), yet
check_table still returns the live table handle instead of failing: the
boolean result of update_schema is ignored by check_table. -/
theorem check_table_claim_false :
    c5Env.load = .ok [⟨1, "event_id", "string", true, none⟩] ∧
    c5Env.evolveFailAt = some 0 ∧
    (update_schema (some 0) [⟨1, "event_id", "string", true, none⟩] c5Md).1 = false ∧
    check_table c5Env c5Md = .ok (some [⟨1, "event_id", "string", true, none⟩]) := by
  refine ⟨rfl, rfl, ?_, ?_⟩ <;> rfl

/-- Claim C5 (amended). check_table returns a live table handle exactly
when the schema descriptor validates and the load-or-create step
succeeds (the table loads, or it does not exist and creation succeeds);
the outcome of a required schema evolution — success or failure — never
affects whether the handle is returned. Namespace failures are reported
separately by check_glue_database and load/create failures surface as
the None handle; no distinct schema-evolution failure outcome exists. -/
theorem check_table_handle_iff (env : CatalogEnv) (metadata_fields : List FieldJson) :
    (∃ r, check_table env metadata_fields = .ok (some r)) ↔
      (env.schemaValidOk = true ∧
        ((∃ g, env.load = .ok g) ∨
          (env.load = .noSuchTable ∧ env.createOk = true))) := by
  rw [check_table]
  by_cases hv : env.schemaValidOk
  · simp only [hv, Bool.not_true, Bool.false_eq_true, if_false, true_and]
    match hl : env.load with
    | .otherError =>
      simp
    | .noSuchTable =>
      by_cases hc : env.createOk
      · simp [hc]
      · simp [hc]
    | .ok glue_fields =>
      by_cases hlt : metadata_fields.length > glue_fields.length
      · simp only [hlt, if_true]
        constructor
        · intro h; exact Or.inl ⟨glue_fields, rfl⟩
        · intro h; exact ⟨_, rfl⟩
      · simp only [hlt, if_false]
        constructor
        · intro h; exact Or.inl ⟨glue_fields, rfl⟩
        · intro h; exact ⟨_, rfl⟩
  · simp only [Bool.not_eq_true'] at hv
    simp [hv]

/-! ## Idempotency ledger (dynamo_event.py manage_dynamo_event)

DynamoDB items are attribute maps; the table is an association list from
the partition key id (the etag) to the item.  ClientError outcomes of
get_item / put_item / update_item are environment flags; any other
Python exception (notably the IndexError of file_key.split("/")[-4] on a
short key) is Except.error. -/

/-- String-keyed association-list read, used for both dict subscripting
and DynamoDB key lookup. -/
def alistGet {α : Type} (l : List (String × α)) (k : String) : Option α :=
  (l.find? (fun kv => kv.1 == k)).map (fun kv => kv.2)

/-- String-keyed association-list write: replace the binding in place,
or append a new one. -/
def alistSet {α : Type} (l : List (String × α)) (k : String) (v : α) :
    List (String × α) :=
  if l.any (fun kv => kv.1 == k) then
    l.map (fun kv => if kv.1 == k then (k, v) else kv)
  else l ++ [(k, v)]

/-- A DynamoDB attribute value: {"S": v} or {"N": v}. -/
inductive AttrVal where
  | s (v : String)
  | n (v : String)
deriving DecidableEq

/-- A DynamoDB item: an attribute map. -/
abbrev Item := List (String × AttrVal)

/-- Item attribute access item[k]. -/
def attrLookup (it : Item) (k : String) : Option AttrVal := alistGet it k

/-- SET one attribute of an item. -/
def setAttr (it : Item) (k : String) (v : AttrVal) : Item := alistSet it k v

/-- The ledger table: items keyed by the id attribute (the etag). -/
abbrev Ledger := List (String × Item)

/-- Strongly consistent get_item by key. -/
def lookupL (l : Ledger) (k : String) : Option Item := alistGet l k

/-- Unconditional put_item: replace the whole item at the key, or
append a new one. -/
def insertL (l : Ledger) (k : String) (it : Item) : Ledger := alistSet l k it

/-- The S3 object of the event envelope: detail.object.{key,size,etag}. -/
structure S3Object where
  key : String
  size : Nat
  etag : String
deriving DecidableEq

/-- The event envelope detail: object and bucket name. -/
structure EventDetail where
  object : S3Object
  bucketName : String
deriving DecidableEq

/-- The parsed EventBridge event body: detail, time, id. -/
structure EventBody where
  detail : EventDetail
  time : String
  id : String
deriving DecidableEq

/-- Split a character list at every occurrence of the separator; the
result always has at least one (possibly empty) group. -/
def splitCharAux (sep : Char) : List Char → List (List Char)
  | [] => [[]]
  | c :: cs =>
    match splitCharAux sep cs with
    | [] => [[]]
    | g :: gs => if c = sep then [] :: g :: gs else (c :: g) :: gs

/-- Python file_key.split("/"): split on every slash, keeping empty
segments, with [""] for the empty string. -/
def splitSlash (s : String) : List String :=
  (splitCharAux '/' s.toList).map fun g => String.mk g

/-- ClientError outcomes of the three DynamoDB calls, plus whether the
DYNAMO_TABLE_NAME environment variable is set. -/
structure DynamoEnv where
  tableNameSet : Bool
  getOk : Bool
  putOk : Bool
  updateOk : Bool
deriving DecidableEq

/-- Python values manage_dynamo_event can return: None, a bool, the
fetched item, or the update_item response object (truthy, unused by the
caller). -/
inductive PyVal where
  | pyNone
  | pyBool (b : Bool)
  | pyItem (it : Item)
  | pyResp
deriving DecidableEq

/-- Python truthiness of the returned value; a fetched item is a
nonempty dict. -/
def pyTruthy : PyVal → Bool
  | .pyNone => false
  | .pyBool b => b
  | .pyItem it => !it.isEmpty
  | .pyResp => true

/-- The PENDING item written by manage_dynamo_event lines 45-57, with
the composite index GSI-SK = database#table#etag. -/
def pendingItem (event_body : EventBody) : Item :=
  let etag := event_body.detail.object.etag
  let file_key := event_body.detail.object.key
  let parts := splitSlash file_key
  let database := parts.getD (parts.length - 4) ""
  let table_name := parts.getD (parts.length - 3) ""
  let file_name := parts.getD (parts.length - 1) ""
  [("id", .s etag), ("status", .s "PENDING"), ("file_key", .s file_key),
   ("file_size", .n (toString event_body.detail.object.size)),
   ("event_time", .s event_body.time), ("event_id", .s event_body.id),
   ("database", .s database), ("table", .s table_name),
   ("file_name", .s file_name), ("GSI-PK", .s "PENDING"),
   ("GSI-SK", .s (database ++ "#" ++ table_name ++ "#" ++ etag))]

/-- The update_item of the COMPLETED/FAIL branch (dynamo_event.py lines
70-97), applied to the stored base item: SET status, GSI-PK (to the new
status) and GSI-SK (to database#table#file_name — note the file name,
not the etag, in the composite index); every other attribute of the
base item is left as it is. -/
def transitionItem (event_body : EventBody) (status : String) (base : Item) : Item :=
  let file_key := event_body.detail.object.key
  let parts := splitSlash file_key
  let database := parts.getD (parts.length - 4) ""
  let table_name := parts.getD (parts.length - 3) ""
  let file_name := parts.getD (parts.length - 1) ""
  setAttr (setAttr (setAttr base "status" (.s status)) "GSI-PK" (.s status))
    "GSI-SK" (.s (database ++ "#" ++ table_name ++ "#" ++ file_name))

/-- Embedding of manage_dynamo_event (dynamo_event.py lines 5-103).
Without the table-name variable it returns None before touching the
key; a file key with fewer than four slash-separated segments raises
IndexError at parts[-4]; CHECK returns the item if present (and
nonempty) else False, and False on a ClientError; PENDING is an
unconditional put of pendingItem; COMPLETED/FAIL is an update_item that
SETs status, GSI-PK and GSI-SK (the latter to database#table#file_name)
and creates a partial item when the key is absent, returning the
response object. -/
def manage_dynamo_event (env : DynamoEnv) (ledger : Ledger)
    (event_body : EventBody) (status : String) :
    Except Unit (PyVal × Ledger) :=
  if !env.tableNameSet then .ok (.pyNone, ledger)
  else
    let etag := event_body.detail.object.etag
    let file_key := event_body.detail.object.key
    let parts := splitSlash file_key
    if parts.length < 4 then .error ()
    else
      if status == "CHECK" then
        if !env.getOk then .ok (.pyBool false, ledger)
        else
          match lookupL ledger etag with
          | some it => if !it.isEmpty then .ok (.pyItem it, ledger) else .ok (.pyBool false, ledger)
          | none => .ok (.pyBool false, ledger)
      else if status == "PENDING" then
        if !env.putOk then .ok (.pyBool false, ledger)
        else .ok (.pyBool true, insertL ledger etag (pendingItem event_body))
      else if status == "COMPLETED" || status == "FAIL" then
        if !env.updateOk then .ok (.pyBool false, ledger)
        else
          let base := (lookupL ledger etag).getD [("id", .s etag)]
          .ok (.pyResp, insertL ledger etag (transitionItem event_body status base))
      else .ok (.pyNone, ledger)

theorem find?_cons_eq {γ : Type} (p : γ → Bool) (a : γ) (l : List γ) :
    (a :: l).find? p = if p a then some a else l.find? p := by
  by_cases h : p a
  · rw [List.find?_cons_of_pos _ h, if_pos h]
  · rw [List.find?_cons_of_neg _ h, if_neg h]

theorem alistGet_set_self {α : Type} (l : List (String × α)) (k : String) (v : α) :
    alistGet (alistSet l k v) k = some v := by
  rw [alistSet]
  by_cases h : l.any (fun kv => kv.1 == k)
  · rw [if_pos h]
    induction l with
    | nil => simp at h
    | cons kv l ih =>
      simp only [List.any_cons, Bool.or_eq_true] at h
      by_cases hk : (kv.1 == k) = true
      · simp only [List.map_cons, if_pos hk, alistGet]
        rw [List.find?_cons_of_pos _ (by simp)]
        rfl
      · have h2 : l.any (fun kv => kv.1 == k) = true := by
          rcases h with h | h
          · exact absurd h hk
          · exact h
        simp only [List.map_cons, if_neg hk, alistGet]
        rw [List.find?_cons_of_neg _ (by simpa using hk)]
        exact ih h2
  · rw [if_neg h]
    induction l with
    | nil =>
      simp only [List.nil_append, alistGet]
      rw [List.find?_cons_of_pos _ (by simp)]
      rfl
    | cons kv l ih =>
      simp only [List.any_cons, Bool.or_eq_true, not_or] at h
      rcases h with ⟨h1, h2⟩
      simp only [List.cons_append, alistGet]
      rw [List.find?_cons_of_neg _ (by simpa using h1)]
      exact ih h2

theorem alistGet_set_ne {α : Type} (l : List (String × α)) (k k2 : String) (v : α)
    (hne : k2 ≠ k) :
    alistGet (alistSet l k v) k2 = alistGet l k2 := by
  have hkk2 : (k == k2) = false := by
    simp only [beq_eq_false_iff_ne, ne_eq]
    exact fun h => hne h.symm
  rw [alistSet]
  by_cases h : l.any (fun kv => kv.1 == k)
  · rw [if_pos h]
    clear h
    induction l with
    | nil => rfl
    | cons kv l ih =>
      by_cases hk : (kv.1 == k) = true
      · have hkv : kv.1 = k := by simpa using hk
        simp only [List.map_cons, if_pos hk, alistGet, find?_cons_eq]
        rw [if_neg (by simp [hkk2]), if_neg (by rw [hkv]; simp [hkk2])]
        exact ih
      · simp only [List.map_cons, if_neg hk, alistGet, find?_cons_eq]
        by_cases hk2 : (kv.1 == k2) = true
        · rw [if_pos hk2, if_pos hk2]
        · rw [if_neg (by simpa using hk2), if_neg (by simpa using hk2)]
          exact ih
  · rw [if_neg h]
    induction l with
    | nil =>
      simp only [List.nil_append, alistGet, find?_cons_eq]
      rw [if_neg (by simp [hkk2])]
    | cons kv l ih =>
      simp only [List.any_cons, Bool.or_eq_true, not_or] at h
      rcases h with ⟨h1, h2⟩
      simp only [List.cons_append, alistGet, find?_cons_eq]
      by_cases hk2 : (kv.1 == k2) = true
      · rw [if_pos hk2, if_pos hk2]
      · rw [if_neg (by simpa using hk2), if_neg (by simpa using hk2)]
        exact ih h2

/-- Claim C9. The ledger's PENDING write is an unconditional put: for
every prior ledger state — in particular one already holding a terminal
COMPLETED or FAIL record for the same identity — admission succeeds,
the record at the identity becomes the fresh PENDING item, and every
other identity's record is untouched; no insert-if-absent condition is
involved, so the terminal-record invariant can only come from the
orchestrator's lookup-before-admit discipline. -/
theorem pending_put_unconditional (env : DynamoEnv) (ledger : Ledger)
    (event_body : EventBody)
    (h1 : env.tableNameSet = true) (h2 : env.putOk = true)
    (h4 : 4 ≤ (splitSlash event_body.detail.object.key).length) :
    manage_dynamo_event env ledger event_body "PENDING" =
      .ok (.pyBool true,
        insertL ledger event_body.detail.object.etag (pendingItem event_body)) ∧
    lookupL (insertL ledger event_body.detail.object.etag (pendingItem event_body))
      event_body.detail.object.etag = some (pendingItem event_body) ∧
    (∀ k, k ≠ event_body.detail.object.etag →
      lookupL (insertL ledger event_body.detail.object.etag (pendingItem event_body)) k
        = lookupL ledger k) := by
  refine ⟨?_, ?_, ?_⟩
  · have hlen : ¬ ((splitSlash event_body.detail.object.key).length < 4) := by omega
    simp only [manage_dynamo_event, h1, h2, Bool.not_true, Bool.false_eq_true, if_false]
    rw [if_neg hlen]
    rfl
  · exact alistGet_set_self _ _ _
  · intro k hk
    exact alistGet_set_ne _ _ _ _ hk

/-- Concrete terminal record for the C9 witness: the identity is
already COMPLETED, and the unconditional put still replaces it. -/
def c9Terminal : Item :=
  [("id", .s "abc123"), ("status", .s "COMPLETED"), ("file_key", .s "raw/salesdb/orders/2024/file1.parquet")]

/-- Concrete event body shared by the ledger witnesses: file key
raw/salesdb/orders/2024/file1.parquet, etag abc123. -/
def cEventBody : EventBody :=
  ⟨⟨⟨"raw/salesdb/orders/2024/file1.parquet", 1024, "abc123"⟩, "raw-bucket"⟩,
   "2024-05-01T10:00:00Z", "evt-001"⟩

/-- Witness for claim C9 at a concrete input with a terminal record
already present for the identity. -/
theorem pending_put_unconditional_witness :
    manage_dynamo_event ⟨true, true, true, true⟩ [("abc123", c9Terminal)] cEventBody "PENDING" =
      .ok (.pyBool true, insertL [("abc123", c9Terminal)] "abc123" (pendingItem cEventBody)) ∧
    lookupL (insertL [("abc123", c9Terminal)] "abc123" (pendingItem cEventBody)) "abc123"
      = some (pendingItem cEventBody) ∧
    (∀ k, k ≠ "abc123" →
      lookupL (insertL [("abc123", c9Terminal)] "abc123" (pendingItem cEventBody)) k
        = lookupL [("abc123", c9Terminal)] k) :=
  pending_put_unconditional ⟨true, true, true, true⟩ [("abc123", c9Terminal)] cEventBody
    rfl rfl (by decide)

/-- The ledger after admitting cEventBody into an empty table. -/
def c8Ledger1 : Ledger := [("abc123", pendingItem cEventBody)]

/-- Claim C8 (counterexample). After the PENDING admission the composite
index attribute GSI-SK is salesdb#orders#abc123 (namespace, table,
identity); transitioning the same record to COMPLETED rewrites GSI-SK to
salesdb#orders#file1.parquet — the file name, not the identity — so the
composite index attribute does not keep the value written at admission,
contrary to the claim. -/
theorem transition_gsisk_claim_false :
    manage_dynamo_event ⟨true, true, true, true⟩ [] cEventBody "PENDING" =
      .ok (.pyBool true, c8Ledger1) ∧
    (lookupL c8Ledger1 "abc123").bind (fun it => attrLookup it "GSI-SK")
      = some (.s "salesdb#orders#abc123") ∧
    manage_dynamo_event ⟨true, true, true, true⟩ c8Ledger1 cEventBody "COMPLETED" =
      .ok (.pyResp, insertL c8Ledger1 "abc123"
        (transitionItem cEventBody "COMPLETED" (pendingItem cEventBody))) ∧
    (lookupL (insertL c8Ledger1 "abc123"
        (transitionItem cEventBody "COMPLETED" (pendingItem cEventBody))) "abc123").bind
      (fun it => attrLookup it "GSI-SK") = some (.s "salesdb#orders#file1.parquet") ∧
    AttrVal.s "salesdb#orders#file1.parquet" ≠ AttrVal.s "salesdb#orders#abc123" := by
  refine ⟨rfl, rfl, rfl, rfl, by decide⟩

/-- Claim C8 (amended). Transitioning an existing ledger record to
COMPLETED or FAIL updates exactly the status, the status index
attribute GSI-PK (both to the new status) and the composite index
attribute GSI-SK — which is set to namespace#table#file_name, replacing
the identity (etag) component written at admission with the file name —
and leaves every other attribute and every other identity's record
unchanged. -/
theorem transition_updates_record (env : DynamoEnv) (ledger : Ledger)
    (event_body : EventBody) (status : String) (it : Item)
    (hs : status = "COMPLETED" ∨ status = "FAIL")
    (h1 : env.tableNameSet = true) (h2 : env.updateOk = true)
    (h4 : 4 ≤ (splitSlash event_body.detail.object.key).length)
    (hit : lookupL ledger event_body.detail.object.etag = some it) :
    manage_dynamo_event env ledger event_body status =
      .ok (.pyResp, insertL ledger event_body.detail.object.etag
        (transitionItem event_body status it)) ∧
    lookupL (insertL ledger event_body.detail.object.etag
        (transitionItem event_body status it)) event_body.detail.object.etag
      = some (transitionItem event_body status it) ∧
    (∀ k, k ≠ event_body.detail.object.etag →
      lookupL (insertL ledger event_body.detail.object.etag
        (transitionItem event_body status it)) k = lookupL ledger k) ∧
    attrLookup (transitionItem event_body status it) "status" = some (.s status) ∧
    attrLookup (transitionItem event_body status it) "GSI-PK" = some (.s status) ∧
    (let parts := splitSlash event_body.detail.object.key
     attrLookup (transitionItem event_body status it) "GSI-SK"
      = some (.s (parts.getD (parts.length - 4) "" ++ "#"
          ++ parts.getD (parts.length - 3) "" ++ "#"
          ++ parts.getD (parts.length - 1) ""))) ∧
    (∀ a, a ≠ "status" → a ≠ "GSI-PK" → a ≠ "GSI-SK" →
      attrLookup (transitionItem event_body status it) a = attrLookup it a) := by
  have hnc : (status == "CHECK") = false := by
    rcases hs with h | h <;> subst h <;> decide
  have hnp : (status == "PENDING") = false := by
    rcases hs with h | h <;> subst h <;> decide
  have hcf : (status == "COMPLETED" || status == "FAIL") = true := by
    rcases hs with h | h <;> subst h <;> decide
  refine ⟨?_, alistGet_set_self _ _ _, fun k hk => alistGet_set_ne _ _ _ _ hk, ?_, ?_, ?_, ?_⟩
  · have hlen : ¬ ((splitSlash event_body.detail.object.key).length < 4) := by omega
    simp only [manage_dynamo_event, h1, h2, hnc, hnp, hcf, Bool.not_true,
      Bool.false_eq_true, if_false, if_true]
    rw [if_neg hlen, hit]
    rfl
  · rw [transitionItem]
    simp only [attrLookup, setAttr]
    rw [alistGet_set_ne _ _ _ _ (by decide), alistGet_set_ne _ _ _ _ (by decide)]
    exact alistGet_set_self _ _ _
  · rw [transitionItem]
    simp only [attrLookup, setAttr]
    rw [alistGet_set_ne _ _ _ _ (by decide)]
    exact alistGet_set_self _ _ _
  · rw [transitionItem]
    simp only [attrLookup, setAttr]
    exact alistGet_set_self _ _ _
  · intro a ha1 ha2 ha3
    rw [transitionItem]
    simp only [attrLookup, setAttr]
    rw [alistGet_set_ne _ _ _ _ ha3, alistGet_set_ne _ _ _ _ ha2,
      alistGet_set_ne _ _ _ _ ha1]

/-- Witness for the amended claim C8 at a concrete input. -/
theorem transition_updates_record_witness :
    manage_dynamo_event ⟨true, true, true, true⟩ c8Ledger1 cEventBody "COMPLETED" =
      .ok (.pyResp, insertL c8Ledger1 "abc123"
        (transitionItem cEventBody "COMPLETED" (pendingItem cEventBody))) ∧
    lookupL (insertL c8Ledger1 "abc123"
        (transitionItem cEventBody "COMPLETED" (pendingItem cEventBody))) "abc123"
      = some (transitionItem cEventBody "COMPLETED" (pendingItem cEventBody)) ∧
    (∀ k, k ≠ "abc123" →
      lookupL (insertL c8Ledger1 "abc123"
        (transitionItem cEventBody "COMPLETED" (pendingItem cEventBody))) k
        = lookupL c8Ledger1 k) ∧
    attrLookup (transitionItem cEventBody "COMPLETED" (pendingItem cEventBody)) "status"
      = some (.s "COMPLETED") ∧
    attrLookup (transitionItem cEventBody "COMPLETED" (pendingItem cEventBody)) "GSI-PK"
      = some (.s "COMPLETED") ∧
    (let parts := splitSlash cEventBody.detail.object.key
     attrLookup (transitionItem cEventBody "COMPLETED" (pendingItem cEventBody)) "GSI-SK"
      = some (.s (parts.getD (parts.length - 4) "" ++ "#"
          ++ parts.getD (parts.length - 3) "" ++ "#"
          ++ parts.getD (parts.length - 1) ""))) ∧
    (∀ a, a ≠ "status" → a ≠ "GSI-PK" → a ≠ "GSI-SK" →
      attrLookup (transitionItem cEventBody "COMPLETED" (pendingItem cEventBody)) a
        = attrLookup (pendingItem cEventBody) a) :=
  transition_updates_record ⟨true, true, true, true⟩ c8Ledger1 cEventBody "COMPLETED"
    (pendingItem cEventBody) (Or.inl rfl) rfl rfl (by decide) rfl

/-! ## Event processing (process_files.py process_event_data) and the
batch driver (lambda_function.py lambda_handler) -/

/-- Outcome of the Glue get_database call in check_glue_database. -/
inductive GlueGetResult where
  | getOkay
  | clientError (createRaises : Bool)
  | otherError
deriving DecidableEq

/-- Embedding of check_glue_database (utils_lib.py lines 56-80): success
returns True; a ClientError triggers create_database, which returns True
but whose own exception is raised inside the handler and therefore
propagates uncaught; any other exception of get_database returns
False. -/
def check_glue_database : GlueGetResult → Except Unit Bool
  | .getOkay => .ok true
  | .clientError false => .ok true
  | .clientError true => .error ()
  | .otherError => .ok false

/-- The parsed metadata.json content as process_event_data reads it:
each field access can fail (absent key / empty list), collapsing to the
METADATA_FILE_ERROR branch; partitionValidOk records whether
PartitionSpec.model_validate_json succeeds. -/
structure Metadata where
  tableName : Option String
  database : Option String
  schemas : List (List FieldJson)
  hasProperties : Bool
  partitionSpecs : List (List PartitionFieldJson)
  partitionValidOk : Bool
deriving DecidableEq

/-- Outcomes of the external calls of one process_event_data run:
read_metadata (False on any fetch/parse error), the Glue database call,
the catalog calls, load_file (None on any load error), and
tbl.append. -/
structure ProcessEnv where
  metadata : Option Metadata
  glue : GlueGetResult
  cat : CatalogEnv
  loadResult : Option DataFrame
  appendOk : Bool
deriving DecidableEq

/-- The structured result dict of process_event_data. -/
structure Resp where
  errorCount : Nat
  errorCode : String
  success : Bool
deriving DecidableEq

/-- Embedding of process_event_data (process_files.py lines 7-124):
read metadata (METADATA_FILE_NOT_FOUND when absent), extract and
validate its fields (METADATA_FILE_ERROR), validate the table
identifier (TABLE_NAME_ERROR), ensure the Glue database
(GLUE_CONNECTION_ERROR; its uncaught exception propagates), ensure the
table (CHECK_TABLE_ERROR; an uncaught validation exception propagates),
load the file (FILE_NOT_FOUND), check partition columns — the validated
PartitionSpec object is always truthy, so the check always runs —
(CHECK_PARTITION_DATA_ERROR), append (WRITE_DATA_ERROR), else success.
The bucket names and file key only form paths and log strings. -/
def process_event_data (env : ProcessEnv) : Except Unit Resp :=
  match env.metadata with
  | none => .ok ⟨1, "METADATA_FILE_NOT_FOUND", false⟩
  | some md =>
    match md.tableName, md.database, md.schemas.head?, md.partitionSpecs.head? with
    | some table_name, some _glue_database, some schema_fields, some partition_fields =>
      if !(md.hasProperties && md.partitionValidOk) then
        .ok ⟨1, "METADATA_FILE_ERROR", false⟩
      else if !(validateTableName table_name) then
        .ok ⟨1, "TABLE_NAME_ERROR", false⟩
      else
        match check_glue_database env.glue with
        | .error _ => .error ()
        | .ok false => .ok ⟨1, "GLUE_CONNECTION_ERROR", false⟩
        | .ok true =>
          match check_table env.cat schema_fields with
          | .error _ => .error ()
          | .ok none => .ok ⟨1, "CHECK_TABLE_ERROR", false⟩
          | .ok (some _tbl) =>
            match env.loadResult with
            | none => .ok ⟨1, "FILE_NOT_FOUND", false⟩
            | some df =>
              if !(check_partition_columns df partition_fields) then
                .ok ⟨1, "CHECK_PARTITION_DATA_ERROR", false⟩
              else if !env.appendOk then
                .ok ⟨1, "WRITE_DATA_ERROR", false⟩
              else .ok ⟨0, "", true⟩
    | _, _, _, _ => .ok ⟨1, "METADATA_FILE_ERROR", false⟩

/-- One record of the Lambda batch: the parsed event body together with
the outcomes of the external calls its processing will make. -/
structure RecordEnv where
  body : EventBody
  denv : DynamoEnv
  penv : ProcessEnv
deriving DecidableEq

/-- The per-event outcome of the batch driver: the duplicate branch
(carrying the status and file_key attributes it reads for the log line)
or a processed structured result. -/
inductive Outcome where
  | duplicate (statusRecord keyRecord : AttrVal)
  | processed (r : Resp)
deriving DecidableEq

/-- The contribution of one outcome to count_error: a duplicate adds 1
(lambda_function.py line 23), a processed result adds its errorCount
(line 48). -/
def errContribution : Outcome → Nat
  | .duplicate _ _ => 1
  | .processed r => r.errorCount

/-- The response variable of lambda_handler lines 30-39: the structured
result of process_event_data, with every exception it raises caught and
converted to the PROCESS_EVENT_ERROR result. -/
def responseOf (penv : ProcessEnv) : Resp :=
  match process_event_data penv with
  | .ok r => r
  | .error _ => ⟨1, "PROCESS_EVENT_ERROR", false⟩

/-- The non-duplicate path of lambda_handler lines 25-48: admit PENDING
(result unchecked), run process_event_data with exceptions caught, and
transition the ledger to COMPLETED or FAIL (result unchecked). -/
def processBranch (rec : RecordEnv) (ledger1 : Ledger) : Except Unit (Outcome × Ledger) :=
  match manage_dynamo_event rec.denv ledger1 rec.body "PENDING" with
  | .error _ => .error ()
  | .ok (_put, ledger2) =>
    let response := responseOf rec.penv
    match manage_dynamo_event rec.denv ledger2 rec.body
        (if response.success then "COMPLETED" else "FAIL") with
    | .error _ => .error ()
    | .ok (_upd, ledger3) => .ok (.processed response, ledger3)

/-- Embedding of the per-record body of lambda_handler
(lambda_function.py lines 12-50): dedup CHECK; on a truthy record, read
its status and file_key (a KeyError or a non-dict value raises) and
count one error with no further work; otherwise run processBranch. -/
def handleEvent (rec : RecordEnv) (ledger : Ledger) : Except Unit (Outcome × Ledger) :=
  match manage_dynamo_event rec.denv ledger rec.body "CHECK" with
  | .error _ => .error ()
  | .ok (check_record, ledger1) =>
    if pyTruthy check_record then
      match check_record with
      | .pyItem it =>
        match attrLookup it "status", attrLookup it "file_key" with
        | some sv, some kv => .ok (.duplicate sv kv, ledger1)
        | _, _ => .error ()
      | _ => .error ()
    else processBranch rec ledger1

/-- The per-batch loop of lambda_handler with its two counters
(count_error, counter); an uncaught per-event exception aborts the
whole invocation. -/
def lambdaLoop (count_error counter : Nat) (ledger : Ledger) :
    List RecordEnv → Except Unit (Nat × Nat × Ledger)
  | [] => .ok (count_error, counter, ledger)
  | r :: rs =>
    match handleEvent r ledger with
    | .error _ => .error ()
    | .ok (o, l2) => lambdaLoop (count_error + errContribution o) (counter + 1) l2 rs

/-- Embedding of lambda_handler (lambda_function.py lines 8-60),
returning the total error count, the total record count (reported in
the final message "Total errors: k of n records") and the final ledger
state. -/
def lambda_handler (records : List RecordEnv) (ledger : Ledger) :
    Except Unit (Nat × Nat × Ledger) :=
  lambdaLoop 0 0 ledger records

/-- The list of per-event outcomes of a batch, for stating properties of
the driver; it mirrors lambdaLoop without the counters. -/
def batchRun (ledger : Ledger) : List RecordEnv → Except Unit (List Outcome × Ledger)
  | [] => .ok ([], ledger)
  | r :: rs =>
    match handleEvent r ledger with
    | .error _ => .error ()
    | .ok (o, l2) =>
      match batchRun l2 rs with
      | .error _ => .error ()
      | .ok (os, l3) => .ok (o :: os, l3)

/-- The stable error codes of the processing pipeline. -/
def errorCodes : List String :=
  ["METADATA_FILE_NOT_FOUND", "METADATA_FILE_ERROR", "TABLE_NAME_ERROR",
   "GLUE_CONNECTION_ERROR", "CHECK_TABLE_ERROR", "FILE_NOT_FOUND",
   "CHECK_PARTITION_DATA_ERROR", "WRITE_DATA_ERROR", "PROCESS_EVENT_ERROR"]

/-- Shape of every structured per-event result: a success carries no
error, a failure carries exactly one error with a stable code. -/
def respOk (r : Resp) : Prop :=
  (r.success = true ∧ r.errorCount = 0 ∧ r.errorCode = "") ∨
    (r.success = false ∧ r.errorCount = 1 ∧ r.errorCode ∈ errorCodes)

instance (r : Resp) : Decidable (respOk r) := by
  unfold respOk; infer_instance

/-- Shape of every per-event outcome. -/
def outcomeOk : Outcome → Prop
  | .duplicate _ _ => True
  | .processed r => respOk r

/-- Whether an outcome counts as a failed event (a duplicate counts). -/
def isFailed : Outcome → Bool
  | .duplicate _ _ => true
  | .processed r => !r.success

/-- An item holding the two attributes the duplicate branch of
lambda_handler reads. -/
def WFItem (it : Item) : Prop :=
  (attrLookup it "status").isSome ∧ (attrLookup it "file_key").isSome

/-- A ledger whose items all hold those attributes. -/
def WFLedger (l : Ledger) : Prop := ∀ p ∈ l, WFItem p.2

theorem manage_noTable (env : DynamoEnv) (h : env.tableNameSet = false)
    (ledger : Ledger) (body : EventBody) (status : String) :
    manage_dynamo_event env ledger body status = .ok (.pyNone, ledger) := by
  simp [manage_dynamo_event, h]

theorem manage_check_getFail (env : DynamoEnv) (ledger : Ledger) (body : EventBody)
    (h1 : env.tableNameSet = true)
    (h4 : 4 ≤ (splitSlash body.detail.object.key).length)
    (hg : env.getOk = false) :
    manage_dynamo_event env ledger body "CHECK" = .ok (.pyBool false, ledger) := by
  have hlen : ¬ ((splitSlash body.detail.object.key).length < 4) := by omega
  simp only [manage_dynamo_event, h1, hg, Bool.not_true, Bool.false_eq_true, if_false]
  rw [if_neg hlen]
  rfl

theorem manage_check_notFound (env : DynamoEnv) (ledger : Ledger) (body : EventBody)
    (h1 : env.tableNameSet = true)
    (h4 : 4 ≤ (splitSlash body.detail.object.key).length)
    (hg : env.getOk = true)
    (hlu : lookupL ledger body.detail.object.etag = none) :
    manage_dynamo_event env ledger body "CHECK" = .ok (.pyBool false, ledger) := by
  have hlen : ¬ ((splitSlash body.detail.object.key).length < 4) := by omega
  simp only [manage_dynamo_event, h1, hg, hlu, Bool.not_true, Bool.false_eq_true, if_false]
  rw [if_neg hlen]
  rfl

theorem manage_check_found (env : DynamoEnv) (ledger : Ledger) (body : EventBody)
    (it : Item)
    (h1 : env.tableNameSet = true)
    (h4 : 4 ≤ (splitSlash body.detail.object.key).length)
    (hg : env.getOk = true)
    (hlu : lookupL ledger body.detail.object.etag = some it)
    (hne : it.isEmpty = false) :
    manage_dynamo_event env ledger body "CHECK" = .ok (.pyItem it, ledger) := by
  have hlen : ¬ ((splitSlash body.detail.object.key).length < 4) := by omega
  simp only [manage_dynamo_event, h1, hg, hlu, hne, Bool.not_true, Bool.not_false,
    Bool.false_eq_true, if_false, if_true]
  rw [if_neg hlen]
  rfl

theorem manage_pending_eq (env : DynamoEnv) (ledger : Ledger) (body : EventBody)
    (h1 : env.tableNameSet = true)
    (h4 : 4 ≤ (splitSlash body.detail.object.key).length)
    (h2 : env.putOk = true) :
    manage_dynamo_event env ledger body "PENDING" =
      .ok (.pyBool true, insertL ledger body.detail.object.etag (pendingItem body)) := by
  have hlen : ¬ ((splitSlash body.detail.object.key).length < 4) := by omega
  simp only [manage_dynamo_event, h1, h2, Bool.not_true, Bool.false_eq_true, if_false]
  rw [if_neg hlen]
  rfl

theorem manage_transition_eq (env : DynamoEnv) (ledger : Ledger) (body : EventBody)
    (status : String)
    (hs : status = "COMPLETED" ∨ status = "FAIL")
    (h1 : env.tableNameSet = true)
    (h4 : 4 ≤ (splitSlash body.detail.object.key).length)
    (h2 : env.updateOk = true) :
    manage_dynamo_event env ledger body status =
      .ok (.pyResp, insertL ledger body.detail.object.etag
        (transitionItem body status
          ((lookupL ledger body.detail.object.etag).getD
            [("id", .s body.detail.object.etag)]))) := by
  have hnc : (status == "CHECK") = false := by
    rcases hs with h | h <;> subst h <;> decide
  have hnp : (status == "PENDING") = false := by
    rcases hs with h | h <;> subst h <;> decide
  have hcf : (status == "COMPLETED" || status == "FAIL") = true := by
    rcases hs with h | h <;> subst h <;> decide
  have hlen : ¬ ((splitSlash body.detail.object.key).length < 4) := by omega
  simp only [manage_dynamo_event, h1, h2, hnc, hnp, hcf, Bool.not_true,
    Bool.false_eq_true, if_false, if_true]
  rw [if_neg hlen]

theorem manage_transition_fail (env : DynamoEnv) (ledger : Ledger) (body : EventBody)
    (status : String)
    (hs : status = "COMPLETED" ∨ status = "FAIL")
    (h1 : env.tableNameSet = true)
    (h4 : 4 ≤ (splitSlash body.detail.object.key).length)
    (h2 : env.updateOk = false) :
    manage_dynamo_event env ledger body status = .ok (.pyBool false, ledger) := by
  have hnc : (status == "CHECK") = false := by
    rcases hs with h | h <;> subst h <;> decide
  have hnp : (status == "PENDING") = false := by
    rcases hs with h | h <;> subst h <;> decide
  have hcf : (status == "COMPLETED" || status == "FAIL") = true := by
    rcases hs with h | h <;> subst h <;> decide
  have hlen : ¬ ((splitSlash body.detail.object.key).length < 4) := by omega
  simp only [manage_dynamo_event, h1, h2, hnc, hnp, hcf, Bool.not_true, Bool.not_false,
    Bool.false_eq_true, if_false, if_true]
  rw [if_neg hlen]

theorem WFItem_pending (body : EventBody) : WFItem (pendingItem body) := by
  constructor <;> rfl

theorem WFItem_transitionItem (body : EventBody) (status : String) (base : Item)
    (h : WFItem base) : WFItem (transitionItem body status base) := by
  constructor
  · rw [transitionItem]
    simp only [attrLookup, setAttr]
    rw [alistGet_set_ne _ _ _ _ (by decide), alistGet_set_ne _ _ _ _ (by decide),
      alistGet_set_self]
    rfl
  · rw [transitionItem]
    simp only [attrLookup, setAttr]
    rw [alistGet_set_ne _ _ _ _ (by decide), alistGet_set_ne _ _ _ _ (by decide),
      alistGet_set_ne _ _ _ _ (by decide)]
    exact h.2

theorem WFLedger_insert (l : Ledger) (k : String) (it : Item)
    (hl : WFLedger l) (hit : WFItem it) : WFLedger (insertL l k it) := by
  intro p hp
  rw [insertL, alistSet] at hp
  by_cases h : l.any (fun kv => kv.1 == k)
  · rw [if_pos h] at hp
    rcases List.mem_map.mp hp with ⟨q, hq, hpq⟩
    by_cases hqk : (q.1 == k) = true
    · rw [if_pos hqk] at hpq; subst hpq; exact hit
    · rw [if_neg hqk] at hpq; subst hpq; exact hl q hq
  · rw [if_neg h] at hp
    rcases List.mem_append.mp hp with hp | hp
    · exact hl p hp
    · rcases List.mem_singleton.mp hp with rfl; exact hit

theorem WFLedger_lookup {l : Ledger} {k : String} {it : Item}
    (hl : WFLedger l) (h : lookupL l k = some it) : WFItem it := by
  rw [lookupL, alistGet] at h
  rcases Option.map_eq_some'.mp h with ⟨q, hq, hq2⟩
  subst hq2
  exact hl q (List.mem_of_find?_eq_some hq)

theorem WFItem_not_empty {it : Item} (h : WFItem it) : it.isEmpty = false := by
  cases it with
  | nil =>
    rcases h with ⟨h1, _⟩
    simp [attrLookup, alistGet] at h1
  | cons kv l => rfl

theorem process_resp_shape (env : ProcessEnv) (r : Resp)
    (h : process_event_data env = .ok r) : respOk r := by
  unfold process_event_data at h
  repeat
    first
    | (injection h with h; subst h; decide)
    | (exact Except.noConfusion h)
    | split at h

theorem response_ok (penv : ProcessEnv) : respOk (responseOf penv) := by
  rw [responseOf]
  match hp : process_event_data penv with
  | .ok r => exact process_resp_shape penv r hp
  | .error e => exact (show respOk ⟨1, "PROCESS_EVENT_ERROR", false⟩ by decide)

theorem processBranch_good (rec : RecordEnv) (ledger1 : Ledger)
    (hkey : rec.denv.tableNameSet = true → 4 ≤ (splitSlash rec.body.detail.object.key).length)
    (hput : rec.denv.putOk = true)
    (hwf1 : WFLedger ledger1) :
    ∃ o l2, processBranch rec ledger1 = .ok (o, l2) ∧ outcomeOk o ∧ WFLedger l2 := by
  by_cases htn : rec.denv.tableNameSet = true
  · have h4 := hkey htn
    have hst : (if (responseOf rec.penv).success then "COMPLETED" else "FAIL") = "COMPLETED"
        ∨ (if (responseOf rec.penv).success then "COMPLETED" else "FAIL") = "FAIL" := by
      cases (responseOf rec.penv).success
      · exact Or.inr rfl
      · exact Or.inl rfl
    by_cases hupd : rec.denv.updateOk = true
    · have hbase : (lookupL (insertL ledger1 rec.body.detail.object.etag (pendingItem rec.body))
          rec.body.detail.object.etag).getD [("id", .s rec.body.detail.object.etag)]
          = pendingItem rec.body := by
        rw [lookupL, insertL, alistGet_set_self]
        rfl
      refine ⟨.processed (responseOf rec.penv),
        insertL (insertL ledger1 rec.body.detail.object.etag (pendingItem rec.body))
          rec.body.detail.object.etag
          (transitionItem rec.body
            (if (responseOf rec.penv).success then "COMPLETED" else "FAIL")
            (pendingItem rec.body)), ?_, response_ok rec.penv, ?_⟩
      · simp only [processBranch,
          manage_pending_eq rec.denv ledger1 rec.body htn h4 hput,
          manage_transition_eq rec.denv
            (insertL ledger1 rec.body.detail.object.etag (pendingItem rec.body))
            rec.body (if (responseOf rec.penv).success then "COMPLETED" else "FAIL")
            hst htn h4 hupd, hbase]
      · exact WFLedger_insert _ _ _
          (WFLedger_insert _ _ _ hwf1 (WFItem_pending rec.body))
          (WFItem_transitionItem _ _ _ (WFItem_pending rec.body))
    · have hupd2 : rec.denv.updateOk = false := by simpa using hupd
      refine ⟨.processed (responseOf rec.penv),
        insertL ledger1 rec.body.detail.object.etag (pendingItem rec.body), ?_,
        response_ok rec.penv, ?_⟩
      · simp only [processBranch,
          manage_pending_eq rec.denv ledger1 rec.body htn h4 hput,
          manage_transition_fail rec.denv
            (insertL ledger1 rec.body.detail.object.etag (pendingItem rec.body))
            rec.body (if (responseOf rec.penv).success then "COMPLETED" else "FAIL")
            hst htn h4 hupd2]
      · exact WFLedger_insert _ _ _ hwf1 (WFItem_pending rec.body)
  · have htn2 : rec.denv.tableNameSet = false := by simpa using htn
    refine ⟨.processed (responseOf rec.penv), ledger1, ?_, response_ok rec.penv, hwf1⟩
    simp only [processBranch, manage_noTable rec.denv htn2]

theorem handleEvent_good (rec : RecordEnv) (ledger : Ledger)
    (hkey : rec.denv.tableNameSet = true → 4 ≤ (splitSlash rec.body.detail.object.key).length)
    (hput : rec.denv.putOk = true)
    (hwf : WFLedger ledger) :
    ∃ o l2, handleEvent rec ledger = .ok (o, l2) ∧ outcomeOk o ∧ WFLedger l2 := by
  by_cases htn : rec.denv.tableNameSet = true
  · have h4 := hkey htn
    by_cases hget : rec.denv.getOk = true
    · match hlu : lookupL ledger rec.body.detail.object.etag with
      | some it =>
        have hwfit := WFLedger_lookup hwf hlu
        have hne := WFItem_not_empty hwfit
        rcases Option.isSome_iff_exists.mp hwfit.1 with ⟨sv, hsv⟩
        rcases Option.isSome_iff_exists.mp hwfit.2 with ⟨kv, hkv⟩
        refine ⟨.duplicate sv kv, ledger, ?_, trivial, hwf⟩
        simp only [handleEvent,
          manage_check_found rec.denv ledger rec.body it htn h4 hget hlu hne,
          pyTruthy, hne, Bool.not_false, if_true, hsv, hkv]
      | none =>
        rcases processBranch_good rec ledger hkey hput hwf with ⟨o, l2, hpb, ho, hwf2⟩
        refine ⟨o, l2, ?_, ho, hwf2⟩
        simp only [handleEvent,
          manage_check_notFound rec.denv ledger rec.body htn h4 hget hlu,
          pyTruthy, Bool.false_eq_true, if_false]
        exact hpb
    · have hget2 : rec.denv.getOk = false := by simpa using hget
      rcases processBranch_good rec ledger hkey hput hwf with ⟨o, l2, hpb, ho, hwf2⟩
      refine ⟨o, l2, ?_, ho, hwf2⟩
      simp only [handleEvent,
        manage_check_getFail rec.denv ledger rec.body htn h4 hget2,
        pyTruthy, Bool.false_eq_true, if_false]
      exact hpb
  · have htn2 : rec.denv.tableNameSet = false := by simpa using htn
    rcases processBranch_good rec ledger hkey hput hwf with ⟨o, l2, hpb, ho, hwf2⟩
    refine ⟨o, l2, ?_, ho, hwf2⟩
    simp only [handleEvent, manage_noTable rec.denv htn2, pyTruthy,
      Bool.false_eq_true, if_false]
    exact hpb

theorem batchRun_spec (records : List RecordEnv) :
    ∀ ledger : Ledger,
      (∀ r ∈ records, r.denv.tableNameSet = true →
        4 ≤ (splitSlash r.body.detail.object.key).length) →
      (∀ r ∈ records, r.denv.putOk = true) →
      WFLedger ledger →
      ∃ outs l2, batchRun ledger records = .ok (outs, l2) ∧
        outs.length = records.length ∧
        (∀ o ∈ outs, outcomeOk o) ∧
        WFLedger l2 ∧
        ∀ ce n, lambdaLoop ce n ledger records =
          .ok (ce + (outs.map errContribution).sum, n + records.length, l2) := by
  induction records with
  | nil =>
    intro ledger _ _ hwf
    exact ⟨[], ledger, rfl, rfl, by simp, hwf, fun ce n => by simp [lambdaLoop]⟩
  | cons r rs ih =>
    intro ledger hkeys hputs hwf
    rcases handleEvent_good r ledger (hkeys r (List.mem_cons_self r rs))
      (hputs r (List.mem_cons_self r rs)) hwf with ⟨o, l2, he, ho, hwf2⟩
    rcases ih l2 (fun q hq => hkeys q (List.mem_cons_of_mem r hq))
      (fun q hq => hputs q (List.mem_cons_of_mem r hq)) hwf2 with
      ⟨outs, l3, hb, hlen, hall, hwf3, hloop⟩
    refine ⟨o :: outs, l3, ?_, by simp [hlen], ?_, hwf3, ?_⟩
    · simp only [batchRun, he, hb]
    · intro o2 ho2
      rcases List.mem_cons.mp ho2 with h | h
      · subst h; exact ho
      · exact hall _ h
    · intro ce n
      simp only [lambdaLoop, he]
      rw [hloop (ce + errContribution o) (n + 1)]
      have hA : ce + errContribution o + (outs.map errContribution).sum
          = ce + ((o :: outs).map errContribution).sum := by
        simp only [List.map_cons, List.sum_cons]
        omega
      have hB : n + 1 + rs.length = n + (r :: rs).length := by
        simp only [List.length_cons]
        omega
      rw [hA, hB]

/-- Concrete descriptor field shared by the orchestrator witnesses. -/
def cField : FieldJson := ⟨1, "event_date", "string", true, none⟩

/-- Concrete partition field referencing cField. -/
def cPartField : PartitionFieldJson := ⟨1, 1000, "identity", "event_date"⟩

/-- Concrete valid metadata for table salesdb.orders. -/
def cMetadata : Metadata :=
  ⟨some "salesdb.orders", some "salesdb", [[cField]], true, [[cPartField]], true⟩

/-- A processing environment in which every external call succeeds and
the loaded batch has no partition nulls. -/
def goodProcessEnv : ProcessEnv :=
  ⟨some cMetadata, .getOkay, ⟨true, .ok [cField], true, none⟩,
   some [("event_date", ⟨3, 0⟩)], true⟩

/-- Like goodProcessEnv, but the loaded batch has one null in the
partition column, so partition validation fails. -/
def failPartProcessEnv : ProcessEnv :=
  ⟨some cMetadata, .getOkay, ⟨true, .ok [cField], true, none⟩,
   some [("event_date", ⟨3, 1⟩)], true⟩

/-- A Dynamo environment in which every ledger call succeeds. -/
def okDynamoEnv : DynamoEnv := ⟨true, true, true, true⟩

/-- Dynamo environment whose get_item raises a ClientError. -/
def c3DynamoEnv : DynamoEnv := ⟨true, false, true, true⟩

/-- The C3 counterexample record: the dedup read fails, everything else
succeeds. -/
def c3Rec : RecordEnv := ⟨cEventBody, c3DynamoEnv, goodProcessEnv⟩

/-- A ledger already holding the terminal record for the C3 record's
identity. -/
def c3Ledger : Ledger := [("abc123", c9Terminal)]

/-- Claim C3 (counterexample). The claim lists ledger reads among the
per-event failures that are converted into structured error results;
but when the dedup get_item fails, the code returns False from the
CHECK branch, the failure is treated as record-absence, the event is
re-admitted — overwriting the existing terminal record — and processing
completes with a success result carrying no error code at all. -/
theorem orchestrator_claim_false :
    c3Rec.denv.getOk = false ∧
    lookupL c3Ledger "abc123" = some c9Terminal ∧
    attrLookup c9Terminal "status" = some (.s "COMPLETED") ∧
    handleEvent c3Rec c3Ledger =
      .ok (.processed ⟨0, "", true⟩,
        [("abc123", transitionItem cEventBody "COMPLETED" (pendingItem cEventBody))]) := by
  exact ⟨rfl, rfl, rfl, rfl⟩

/-- Claim C3 (amended). For every batch whose event keys are well
formed (at least four path segments whenever the ledger is configured)
and whose ledger admissions succeed, over a ledger whose records carry
the standard attributes: processing never lets an exception escape,
every event yields a structured per-event outcome — a success with zero
errors and empty code, or a failure counted once with a stable code
from the fixed taxonomy, or the duplicate outcome — and the batch
driver continues through all events, reporting the total error count
and the total record count; ledger read and write failures, however,
are silently ignored rather than converted into error results (a
failed dedup read is treated as no-record, a failed write's False
return is unchecked). -/
theorem orchestrator_structured_errors (records : List RecordEnv) (ledger : Ledger)
    (hkeys : ∀ r ∈ records, r.denv.tableNameSet = true →
      4 ≤ (splitSlash r.body.detail.object.key).length)
    (hputs : ∀ r ∈ records, r.denv.putOk = true)
    (hwf : WFLedger ledger) :
    ∃ outs l2, batchRun ledger records = .ok (outs, l2) ∧
      outs.length = records.length ∧
      (∀ o ∈ outs, outcomeOk o) ∧
      lambda_handler records ledger =
        .ok ((outs.map errContribution).sum, records.length, l2) := by
  rcases batchRun_spec records ledger hkeys hputs hwf with
    ⟨outs, l2, hb, hlen, hall, _, hloop⟩
  refine ⟨outs, l2, hb, hlen, hall, ?_⟩
  have h0 := hloop 0 0
  simpa [lambda_handler] using h0

/-- Witness for the amended claim C3 at a concrete one-event batch. -/
theorem orchestrator_structured_errors_witness :
    ∃ outs l2,
      batchRun [] [⟨cEventBody, okDynamoEnv, goodProcessEnv⟩] = .ok (outs, l2) ∧
      outs.length = 1 ∧
      (∀ o ∈ outs, outcomeOk o) ∧
      lambda_handler [⟨cEventBody, okDynamoEnv, goodProcessEnv⟩] [] =
        .ok ((outs.map errContribution).sum, 1, l2) :=
  orchestrator_structured_errors [⟨cEventBody, okDynamoEnv, goodProcessEnv⟩] []
    (by decide) (by decide) (fun p hp => absurd hp (List.not_mem_nil p))

theorem sum_contrib_eq_failed (outs : List Outcome)
    (h : ∀ o ∈ outs, outcomeOk o) :
    (outs.map errContribution).sum = (outs.filter isFailed).length := by
  induction outs with
  | nil => rfl
  | cons o os ih =>
    have ho := h o (List.mem_cons_self o os)
    have hos := ih fun q hq => h q (List.mem_cons_of_mem o hq)
    simp only [List.map_cons, List.sum_cons, List.filter_cons]
    rw [hos]
    cases o with
    | duplicate sv kv =>
      simp only [errContribution, isFailed, if_true, List.length_cons]
      omega
    | processed r =>
      have ho2 : respOk r := ho
      rcases ho2 with ⟨hs, hc, _⟩ | ⟨hs, hc, _⟩
      · simp [errContribution, isFailed, hs, hc]
      · simp only [errContribution, isFailed, hs, hc, Bool.not_false, if_true,
          List.length_cons]
        omega

/-- Claim C7. For every batch of n well-formed event records over a
well-formed ledger with successful admissions, the driver processes
each event — no event's failure aborts a sibling — and reports
processed = n together with errorCount = the number of failed events,
duplicates counted as failures. -/
theorem batch_aggregates_counts (records : List RecordEnv) (ledger : Ledger)
    (hkeys : ∀ r ∈ records, r.denv.tableNameSet = true →
      4 ≤ (splitSlash r.body.detail.object.key).length)
    (hputs : ∀ r ∈ records, r.denv.putOk = true)
    (hwf : WFLedger ledger) :
    ∃ outs l2, batchRun ledger records = .ok (outs, l2) ∧
      outs.length = records.length ∧
      lambda_handler records ledger =
        .ok ((outs.filter isFailed).length, records.length, l2) := by
  rcases batchRun_spec records ledger hkeys hputs hwf with
    ⟨outs, l2, hb, hlen, hall, _, hloop⟩
  refine ⟨outs, l2, hb, hlen, ?_⟩
  have h0 := hloop 0 0
  rw [sum_contrib_eq_failed outs hall] at h0
  simpa [lambda_handler] using h0

/-- Second concrete event body (distinct identity and file). -/
def cEventBody2 : EventBody :=
  ⟨⟨⟨"raw/salesdb/orders/2024/file2.parquet", 2048, "def456"⟩, "raw-bucket"⟩,
   "2024-05-01T10:05:00Z", "evt-002"⟩

/-- Third concrete event body (distinct identity and file). -/
def cEventBody3 : EventBody :=
  ⟨⟨⟨"raw/salesdb/orders/2024/file3.parquet", 4096, "ghi789"⟩, "raw-bucket"⟩,
   "2024-05-01T10:10:00Z", "evt-003"⟩

/-- A three-event batch whose middle event fails partition validation. -/
def c7Records : List RecordEnv :=
  [⟨cEventBody, okDynamoEnv, goodProcessEnv⟩,
   ⟨cEventBody2, okDynamoEnv, failPartProcessEnv⟩,
   ⟨cEventBody3, okDynamoEnv, goodProcessEnv⟩]

/-- Witness for claim C7: three events, one partition-null failure. -/
theorem batch_aggregates_counts_witness :
    ∃ outs l2, batchRun [] c7Records = .ok (outs, l2) ∧
      outs.length = c7Records.length ∧
      lambda_handler c7Records [] =
        .ok ((outs.filter isFailed).length, c7Records.length, l2) :=
  batch_aggregates_counts c7Records [] (by decide) (by decide)
    (fun p hp => absurd hp (List.not_mem_nil p))

theorem duplicate_branch_eq (body : EventBody) (denv : DynamoEnv) (penv : ProcessEnv)
    (ledger : Ledger) (it : Item) (sv kv : AttrVal)
    (htn : denv.tableNameSet = true) (hget : denv.getOk = true)
    (h4 : 4 ≤ (splitSlash body.detail.object.key).length)
    (hlu : lookupL ledger body.detail.object.etag = some it)
    (hsv : attrLookup it "status" = some sv)
    (hkv : attrLookup it "file_key" = some kv) :
    handleEvent ⟨body, denv, penv⟩ ledger = .ok (.duplicate sv kv, ledger) := by
  have hne : it.isEmpty = false := by
    cases it with
    | nil => simp [attrLookup, alistGet] at hsv
    | cons a l => rfl
  simp only [handleEvent,
    manage_check_found denv ledger body it htn h4 hget hlu hne,
    pyTruthy, hne, Bool.not_false, if_true, hsv, hkv]

/-- Claim C4. For every event whose identity already has a ledger
record in terminal status COMPLETED or FAIL, redelivery (with the
ledger configured and the dedup read succeeding) yields the duplicate
outcome carrying the stored status, is counted as exactly one error,
runs no processing step — the result is the same for every possible
processing environment, and the put/update outcomes of the Dynamo
environment are never consulted — and performs no ledger mutation: the
returned ledger is the input ledger, terminal record untouched. -/
theorem duplicate_terminal_event (body : EventBody) (denv : DynamoEnv)
    (ledger : Ledger) (it : Item) (st : String) (kv : AttrVal)
    (htn : denv.tableNameSet = true) (hget : denv.getOk = true)
    (h4 : 4 ≤ (splitSlash body.detail.object.key).length)
    (hlu : lookupL ledger body.detail.object.etag = some it)
    (_hst : st = "COMPLETED" ∨ st = "FAIL")
    (hsv : attrLookup it "status" = some (.s st))
    (hkv : attrLookup it "file_key" = some kv) :
    (∀ penv : ProcessEnv,
      handleEvent ⟨body, denv, penv⟩ ledger = .ok (.duplicate (.s st) kv, ledger)) ∧
    errContribution (.duplicate (.s st) kv) = 1 :=
  ⟨fun penv => duplicate_branch_eq body denv penv ledger it (.s st) kv
    htn hget h4 hlu hsv hkv, rfl⟩

/-- Witness for claim C4: a COMPLETED record is redelivered. -/
theorem duplicate_terminal_event_witness :
    (∀ penv : ProcessEnv,
      handleEvent ⟨cEventBody, okDynamoEnv, penv⟩ [("abc123", c9Terminal)] =
        .ok (.duplicate (.s "COMPLETED")
          (.s "raw/salesdb/orders/2024/file1.parquet"), [("abc123", c9Terminal)])) ∧
    errContribution (.duplicate (.s "COMPLETED")
      (.s "raw/salesdb/orders/2024/file1.parquet")) = 1 :=
  duplicate_terminal_event cEventBody okDynamoEnv [("abc123", c9Terminal)] c9Terminal
    "COMPLETED" (.s "raw/salesdb/orders/2024/file1.parquet")
    rfl rfl (by decide) rfl (Or.inl rfl) rfl rfl

/-- Claim C10. A redelivered event whose ledger record is still PENDING
is handled exactly like a terminal duplicate: the dedup lookup returns
the record regardless of its status, the event yields the duplicate
outcome counted as one error, no processing step runs (the result is
identical for every processing environment and ignores the put/update
outcomes), and the ledger is unchanged — redelivery never resumes a
PENDING ingestion. -/
theorem duplicate_pending_event (body : EventBody) (denv : DynamoEnv)
    (ledger : Ledger) (it : Item) (kv : AttrVal)
    (htn : denv.tableNameSet = true) (hget : denv.getOk = true)
    (h4 : 4 ≤ (splitSlash body.detail.object.key).length)
    (hlu : lookupL ledger body.detail.object.etag = some it)
    (hsv : attrLookup it "status" = some (.s "PENDING"))
    (hkv : attrLookup it "file_key" = some kv) :
    (∀ penv : ProcessEnv,
      handleEvent ⟨body, denv, penv⟩ ledger =
        .ok (.duplicate (.s "PENDING") kv, ledger)) ∧
    errContribution (.duplicate (.s "PENDING") kv) = 1 :=
  ⟨fun penv => duplicate_branch_eq body denv penv ledger it (.s "PENDING") kv
    htn hget h4 hlu hsv hkv, rfl⟩

/-- Witness for claim C10: a PENDING record (as written by the admission
step) is redelivered. -/
theorem duplicate_pending_event_witness :
    (∀ penv : ProcessEnv,
      handleEvent ⟨cEventBody, okDynamoEnv, penv⟩ [("abc123", pendingItem cEventBody)] =
        .ok (.duplicate (.s "PENDING")
          (.s "raw/salesdb/orders/2024/file1.parquet"), [("abc123", pendingItem cEventBody)])) ∧
    errContribution (.duplicate (.s "PENDING")
      (.s "raw/salesdb/orders/2024/file1.parquet")) = 1 :=
  duplicate_pending_event cEventBody okDynamoEnv [("abc123", pendingItem cEventBody)]
    (pendingItem cEventBody) (.s "raw/salesdb/orders/2024/file1.parquet")
    rfl rfl (by decide) rfl rfl rfl

end Lakehouse
